import Mathlib

/-!
Verification of the Tetris game engine of this repository: shape masks,
rotation, collision detection, row clearing, scoring, the per-frame update
and stats persistence, embedded from src/main.py and src/constants.py.

Python integers are modelled as Int.  The 16-tuple block mask of a shape is
modelled as a List Bool of length 16; every mask access performed by the
program uses the index function index_bm on local coordinates in [0, 4), so
all indices lie in [0, 16) on every reachable path, and the lookup helper
bmGet returns false outside that range (the Python code would raise there,
but no verified path reaches it).  The while loop of clear_full_rows does
not advance its row index after clearing a row, so it is embedded with an
explicit fuel argument; a theorem below proves the chosen fuel always
suffices, which is the termination statement for the loop.  The random
choice of random.choice in get_new_shape is modelled by passing the chosen
TetrisBlockShape explicitly.
-/

namespace Tetris

/-- constants.py: WIDTH = 13. -/
def WIDTH : Int := 13

/-- constants.py: HEIGHT = 21. -/
def HEIGHT : Int := 21

/-- constants.py: POINTS_PER_FULL_ROW = 10. -/
def POINTS_PER_FULL_ROW : Int := 10

/-- curses.KEY_DOWN key code. -/
def KEY_DOWN : Int := 258

/-- curses.KEY_UP key code. -/
def KEY_UP : Int := 259

/-- curses.KEY_LEFT key code. -/
def KEY_LEFT : Int := 260

/-- curses.KEY_RIGHT key code. -/
def KEY_RIGHT : Int := 261

/-- constants.py: ARROW_KEYS = [KEY_UP, KEY_DOWN, KEY_LEFT, KEY_RIGHT]. -/
def ARROW_KEYS : List Int := [KEY_UP, KEY_DOWN, KEY_LEFT, KEY_RIGHT]

/-- main.py index_bm: index function for the block mask, slot 4*y + (3 - x). -/
def index_bm (x y : Int) : Int := 4 * y + (3 - x)

/-- Reading slot i of a block mask (Python tuple indexing); every call site of
the program stays inside [0, 16), out of range reads answer false here. -/
def bmGet (mask : List Bool) (i : Int) : Bool :=
  if 0 ≤ i then mask.getD i.toNat false else false

/-- Writing slot i of a block mask (Python list assignment); every call site of
the program stays inside [0, 16), out of range writes are dropped here. -/
def bmSet (mask : List Bool) (i : Int) (b : Bool) : List Bool :=
  if 0 ≤ i then mask.set i.toNat b else mask

/-- The loop bound range(4) of the local coordinate loops, as Int values. -/
def range4 : List Int := [0, 1, 2, 3]

/-- The integer list range(a, b) of Python, over Int endpoints. -/
def intRange (a b : Int) : List Int :=
  (List.range (b - a).toNat).map (fun (i : Nat) => a + (i : Int))

/-- custom_types Vector2: a mutable integer 2d position. -/
structure Vector2 where
  x : Int
  y : Int
deriving DecidableEq, Repr

/-- custom_types BoundingBox with fields (min_x, max_x, min_y, max_y). -/
structure BoundingBox where
  min_x : Int
  max_x : Int
  min_y : Int
  max_y : Int
deriving DecidableEq, Repr

/-- custom_types TetrisBlock: position (bottom left of the 4x4 box), the
16-entry block mask and a color id. -/
structure TetrisBlock where
  position : Vector2
  block : List Bool
  color : Int
deriving DecidableEq, Repr

/-- custom_types TetrisBlockShape: the seven tetromino kinds. -/
inductive TetrisBlockShape where
  | I | J | L | O | S | T | Z
deriving DecidableEq, Repr

/-- constants.py BLOCK_MASKS, in the same tuple order. -/
def BLOCK_MASKS : TetrisBlockShape → List Bool
  | .I => [false, false, false, false,
           true, true, true, true,
           false, false, false, false,
           false, false, false, false]
  | .J => [false, false, false, false,
           false, true, false, false,
           false, true, true, true,
           false, false, false, false]
  | .L => [false, false, false, false,
           false, false, true, false,
           true, true, true, false,
           false, false, false, false]
  | .O => [false, false, false, false,
           false, true, true, false,
           false, true, true, false,
           false, false, false, false]
  | .S => [false, false, false, false,
           false, true, true, false,
           true, true, false, false,
           false, false, false, false]
  | .T => [false, false, false, false,
           false, true, false, false,
           true, true, true, false,
           false, false, false, false]
  | .Z => [false, false, false, false,
           true, true, false, false,
           false, true, true, false,
           false, false, false, false]

/-- constants.py BLOCK_COLORS through COLOR_MAP. -/
def BLOCK_COLORS : TetrisBlockShape → Int
  | .I => 1
  | .J => 2
  | .L => 3
  | .O => 4
  | .S => 5
  | .T => 6
  | .Z => 7

/-- main.py get_shape_bounds: bounding box of a shape from its reference point. -/
def get_shape_bounds (position : Vector2) : BoundingBox :=
  ⟨position.x, position.x + 4, position.y, position.y + 4⟩

/-- main.py get_intersection_area: the box where two boxes could overlap. -/
def get_intersection_area (box_a box_b : BoundingBox) : BoundingBox :=
  ⟨max box_a.min_x box_b.min_x,
   min box_a.max_x box_b.max_x,
   max box_a.min_y box_b.min_y,
   min box_a.max_y box_b.max_y⟩

/-- main.py check_collision: cell-by-cell overlap test inside the
intersection box. -/
def check_collision (intersection : BoundingBox) (shape_a shape_b : TetrisBlock) : Bool :=
  (intRange intersection.min_x intersection.max_x).any (fun x =>
    (intRange intersection.min_y intersection.max_y).any (fun y =>
      bmGet shape_a.block (index_bm (x - shape_a.position.x) (y - shape_a.position.y)) &&
      bmGet shape_b.block (index_bm (x - shape_b.position.x) (y - shape_b.position.y))))

/-- main.py intersects_any: the last shape of the list is the moving one; it is
compared against every other shape after a bounding box prune.  The program
never calls this with an empty list; the empty case answers false here. -/
def intersects_any (shapes : List TetrisBlock) : Bool :=
  match shapes.getLast? with
  | none => false
  | some current_shape =>
    let current_bb := get_shape_bounds current_shape.position
    shapes.dropLast.any (fun other_shape =>
      let other_bb := get_shape_bounds other_shape.position
      if current_bb.min_x > other_bb.max_x || current_bb.max_x < other_bb.min_x then false
      else if current_bb.min_y > other_bb.max_y || current_bb.max_y < other_bb.min_y then false
      else check_collision (get_intersection_area current_bb other_bb) current_shape other_shape)

/-- main.py rotate_shape: rotates a mask inside the 4x4 frame by writing the
cell read at local (x, y) to local (y, 3 - x). -/
def rotate_shape (mask : List Bool) : List Bool :=
  range4.foldl (fun result x =>
    range4.foldl (fun result y =>
      bmSet result (index_bm y (3 - x)) (bmGet mask (index_bm x y))) result)
    (List.replicate 16 false)

/-- main.py move_shape: applies one directional key to a shape. -/
def move_shape (shape : TetrisBlock) (key : Int) : TetrisBlock :=
  if key = KEY_LEFT then
    { shape with position := { shape.position with x := shape.position.x - 1 } }
  else if key = KEY_RIGHT then
    { shape with position := { shape.position with x := shape.position.x + 1 } }
  else if key = KEY_UP then
    { shape with block := rotate_shape shape.block }
  else if key = KEY_DOWN then
    { shape with position := { shape.position with y := shape.position.y - 1 } }
  else shape

/-- main.py is_in_bounds: every occupied cell must satisfy 0 <= board x < WIDTH
and 0 <= board y; there is no upper bound on y. -/
def is_in_bounds (shape : TetrisBlock) : Bool :=
  range4.all (fun x =>
    range4.all (fun y =>
      if bmGet shape.block (index_bm x y) then
        !(decide (shape.position.x + x < 0) ||
          decide (shape.position.x + x ≥ WIDTH) ||
          decide (shape.position.y + y < 0))
      else true))

/-- main.py categorize_and_mark_shape, marking part: a shape strictly above or
strictly below the row leaves the row fill mask unchanged, a cutting shape
marks every board column of the row where it has an occupied cell. -/
def categorize_and_mark_shape (shape : TetrisBlock) (row_fill_mask : List Bool) (row : Int) :
    List Bool :=
  if shape.position.y > row then row_fill_mask
  else if shape.position.y + 4 ≤ row then row_fill_mask
  else
    range4.foldl (fun mask x =>
      let col_idx := shape.position.x + x
      if ¬ (0 ≤ col_idx ∧ col_idx < WIDTH) then mask
      else if bmGet shape.block (index_bm x (row - shape.position.y)) then
        mask.set col_idx.toNat true
      else mask) row_fill_mask

/-- Classification of main.py categorize_and_mark_shape: the shape is strictly
above the row (it is appended to above_shapes there). -/
def shape_above (shape : TetrisBlock) (row : Int) : Bool :=
  decide (shape.position.y > row)

/-- Classification of main.py categorize_and_mark_shape: the shape is strictly
below the row. -/
def shape_below (shape : TetrisBlock) (row : Int) : Bool :=
  decide (shape.position.y + 4 ≤ row)

/-- The row fill mask built by the loop of main.py clear_full_rows, starting
from [False] * WIDTH and folding categorize_and_mark_shape over the shapes. -/
def row_filled_mask (shapes : List TetrisBlock) (row : Int) : List Bool :=
  shapes.foldl (fun mask shape => categorize_and_mark_shape shape mask row)
    (List.replicate WIDTH.toNat false)

/-- main.py move_shapes_down, for one shape: decrement its y position. -/
def move_shape_down (shape : TetrisBlock) : TetrisBlock :=
  { shape with position := { shape.position with y := shape.position.y - 1 } }

/-- The new 16-entry mask computed by main.py remove_row_from_shapes for one
shape: rows below row_idx are kept, rows above it move down one local row, the
top local row becomes empty. -/
def remove_row_mask (block : List Bool) (row_idx : Int) : List Bool :=
  range4.foldl (fun new_block x =>
    range4.foldl (fun new_block y =>
      if y < row_idx then
        bmSet new_block (index_bm x y) (bmGet block (index_bm x y))
      else if y + 1 < 4 then
        bmSet new_block (index_bm x y) (bmGet block (index_bm x (y + 1)))
      else
        bmSet new_block (index_bm x y) false) new_block) (List.replicate 16 false)

/-- main.py remove_row_from_shapes, for one cutting shape: replace its block by
the mask with local row (row - position.y) removed. -/
def remove_row_from_shape (shape : TetrisBlock) (row : Int) : TetrisBlock :=
  { shape with block := remove_row_mask shape.block (row - shape.position.y) }

/-- One clearing step of main.py clear_full_rows once a row is full:
move_shapes_down on the shapes strictly above the row and
remove_row_from_shapes on the shapes cutting the row; shapes strictly below
are untouched.  The shapes keep their order in the list. -/
def clear_row (shapes : List TetrisBlock) (row : Int) : List TetrisBlock :=
  shapes.map (fun shape =>
    if shape_above shape row then move_shape_down shape
    else if shape_below shape row then shape
    else remove_row_from_shape shape row)

/-- The while loop of main.py clear_full_rows with an explicit fuel argument:
when a scanned row is full it is cleared and the same row index is examined
again, otherwise the scan advances to the next row; the loop ends at
row = HEIGHT.  Running out of fuel answers none; the fuel chosen by
clear_full_rows is proved sufficient below. -/
def clear_full_rows_aux : Nat → List TetrisBlock → Int → Option (List TetrisBlock × Nat)
  | 0, _, _ => none
  | fuel + 1, shapes, row =>
    if row < HEIGHT then
      if (row_filled_mask shapes row).all id then
        match clear_full_rows_aux fuel (clear_row shapes row) row with
        | none => none
        | some (res, n) => some (res, n + 1)
      else
        clear_full_rows_aux fuel shapes (row + 1)
    else
      some (shapes, 0)

/-- Number of occupied cells of one block mask. -/
def cellCount (mask : List Bool) : Nat :=
  (mask.map (fun b => if b then 1 else 0)).sum

/-- Total number of occupied cells over a list of shapes. -/
def totalCells (shapes : List TetrisBlock) : Nat :=
  (shapes.map (fun shape => cellCount shape.block)).sum

/-- main.py clear_full_rows: clears all full rows, returning the final shapes
and the number of cleared rows.  The fuel bound totalCells + HEIGHT + 1 is
proved sufficient below, so the result is never none. -/
def clear_full_rows (shapes : List TetrisBlock) : Option (List TetrisBlock × Nat) :=
  clear_full_rows_aux (totalCells shapes + HEIGHT.toNat + 1) shapes 0

/-- Number of occupied cells a shape has on the local row row - position.y,
counted over the four local columns; for a shape cutting the row these are
exactly the cells that remove_row_from_shape erases from its mask. -/
def rowCount (s : TetrisBlock) (row : Int) : Nat :=
  (range4.map (fun x =>
    if bmGet s.block (index_bm x (row - s.position.y)) then 1 else 0)).sum

/-- custom_types GameContext: the mutable session state. -/
structure GameContext where
  points : Int
  paused : Bool
  game_started : Bool
  shapes : List TetrisBlock
  next_shape : TetrisBlock
  highscore : Int
  level : Int
  cleared_rows : Int
deriving DecidableEq, Repr

/-- main.py get_new_shape, with the random.choice outcome passed explicitly:
a fresh shape of the given kind at position (WIDTH // 2 - 2, HEIGHT - 4). -/
def get_new_shape (kind : TetrisBlockShape) : TetrisBlock :=
  { position := ⟨WIDTH / 2 - 2, HEIGHT - 4⟩
    block := BLOCK_MASKS kind
    color := BLOCK_COLORS kind }

/-- main.py spawn_shape: append next_shape to the shapes list and draw a fresh
next shape of the given kind. -/
def spawn_shape (context : GameContext) (kind : TetrisBlockShape) : GameContext :=
  { context with
    shapes := context.shapes ++ [context.next_shape]
    next_shape := get_new_shape kind }

/-- main.py update_points: add factor * POINTS_PER_FULL_ROW * (level + 1) where
the factor is 1, 3, 5, 8 for 1, 2, 3, 4 cleared rows and 0 otherwise. -/
def update_points (context : GameContext) (num_cleared_rows : Nat) : GameContext :=
  let factor : Int :=
    match num_cleared_rows with
    | 1 => 1
    | 2 => 3
    | 3 => 5
    | 4 => 8
    | _ => 0
  { context with points := context.points + factor * POINTS_PER_FULL_ROW * (context.level + 1) }

/-- main.py update_level: accumulate cleared rows, then level is the floor
division of the new total by 10 (Python // is floor division). -/
def update_level (context : GameContext) (num_cleared_rows : Nat) : GameContext :=
  { context with
    cleared_rows := context.cleared_rows + num_cleared_rows
    level := (context.cleared_rows + num_cleared_rows).fdiv 10 }

/-- main.py reset_game: zero the score, clear the shapes list, spawn one shape,
mark the session not started, zero level and cleared rows. -/
def reset_game (context : GameContext) (kind : TetrisBlockShape) : GameContext :=
  let ctx1 := { context with points := 0, shapes := [] }
  let ctx2 := spawn_shape ctx1 kind
  { ctx2 with game_started := false, level := 0, cleared_rows := 0 }

/-- The settling block of main.py frame (the lines run when a downward move was
rejected): clear full rows, update points and level, spawn a new shape, raise
the highscore to the points, and reset the session when the fresh spawn
collides.  kind1 is the random kind drawn by the settling spawn, kind2 the one
drawn by the spawn inside reset_game. -/
def settle (context : GameContext) (kind1 kind2 : TetrisBlockShape) : Option GameContext :=
  match clear_full_rows context.shapes with
  | none => none
  | some (shapes2, num_deleted_rows) =>
    let ctx2 := { context with shapes := shapes2 }
    let ctx3 := update_points ctx2 num_deleted_rows
    let ctx4 := update_level ctx3 num_deleted_rows
    let ctx5 := spawn_shape ctx4 kind1
    let ctx6 := { ctx5 with highscore := max ctx5.points ctx5.highscore }
    some (if intersects_any ctx6.shapes then reset_game ctx6 kind2 else ctx6)

/-- main.py frame: one frame of the game.  Non arrow keys are ignored.  The
active (last) shape is moved, the move is validated against the bounds and the
other shapes; an invalid move restores the snapshotted position and mask, and
when the rejected move was the downward step the settling logic runs.  The
result is none only when the shapes list is empty (the program keeps it
nonempty) or the proved-sufficient fuel of clear_full_rows were to run out. -/
def frame (key : Int) (kind1 kind2 : TetrisBlockShape) (context : GameContext) :
    Option GameContext :=
  if key ∉ ARROW_KEYS then some context
  else
    match context.shapes.getLast? with
    | none => none
    | some shape =>
      let rest := context.shapes.dropLast
      let old_pos := shape.position
      let old_block := shape.block
      let left_right_up := (key == KEY_LEFT) || (key == KEY_RIGHT) || (key == KEY_UP)
      let moved := move_shape shape key
      if !(is_in_bounds moved) || intersects_any (rest ++ [moved]) then
        let restored := { context with
          shapes := rest ++ [{ moved with position := old_pos, block := old_block }] }
        if !left_right_up then settle restored kind1 kind2
        else some restored
      else
        some { context with shapes := rest ++ [moved] }

/-- The persisted stats record: a Python dict from string keys to integers,
modelled as an association list. -/
def StatsDict := List (String × Int)
deriving DecidableEq

/-- constants.py DEFAULT_STATS. -/
def DEFAULT_STATS : StatsDict := [("highscore", 0)]

/-- Python dict.get with a default, as used on the loaded stats. -/
def statsGet (stats : StatsDict) (key : String) (default : Int) : Int :=
  match stats.find? (fun kv => kv.1 == key) with
  | some kv => kv.2
  | none => default

/-- The stats file, modelled as an external store: none is a missing file;
some none is an unreadable or corrupt file, on which json.load raises
JSONDecodeError; some (some d) is a file whose parsed content is d.  The
json encoder and decoder of the standard library are modelled as a faithful
pair, which is exactly what json.dump followed by json.load provides for a
dict of strings to integers. -/
def StatsFile := Option (Option StatsDict)

/-- main.py save_stats: write the stats dictionary to the stats file. -/
def save_stats (stats : StatsDict) : StatsFile :=
  some (some stats)

/-- main.py load_stats: read the stats dictionary from the stats file; a
missing file (FileNotFoundError) or a corrupt one (JSONDecodeError) answers a
copy of DEFAULT_STATS and no error escapes. -/
def load_stats (file : StatsFile) : StatsDict :=
  match file with
  | none => DEFAULT_STATS
  | some none => DEFAULT_STATS
  | some (some stats) => stats

/-- Derived occupancy notion used to state claims: the shape has an occupied
cell at board column c and board row r. -/
def occupies_cell (shape : TetrisBlock) (c r : Int) : Bool :=
  range4.any (fun x =>
    range4.any (fun y =>
      decide (shape.position.x + x = c) &&
      decide (shape.position.y + y = r) &&
      bmGet shape.block (index_bm x y)))

/-- An O piece at the spawn position (4, 17). -/
def oSpawn : TetrisBlock := ⟨⟨4, 17⟩, BLOCK_MASKS .O, 4⟩

/-- An O piece resting on the floor: its occupied cells lie on board rows 0
and 1, so a further downward step leaves the board. -/
def oFloor : TetrisBlock := ⟨⟨0, -1⟩, BLOCK_MASKS .O, 4⟩

/-- A session holding a single active O piece at the spawn position. -/
def exContext : GameContext :=
  { points := 0
    paused := false
    game_started := true
    shapes := [oSpawn]
    next_shape := get_new_shape .I
    highscore := 0
    level := 0
    cleared_rows := 0 }

/-- The session exContext after one valid downward step of its active piece. -/
def exContextDown : GameContext :=
  { exContext with shapes := [⟨⟨4, 16⟩, BLOCK_MASKS .O, 4⟩] }

/-- A session holding a single active O piece resting on the floor at column
4, away from the spawn column region of row 17, so the next spawn does not
collide. -/
def exFloorCtx : GameContext :=
  { exContext with shapes := [⟨⟨4, -1⟩, BLOCK_MASKS .O, 4⟩] }

/-- A session about to end: a settled O piece occupies the spawn position, the
active O piece rests on the floor, and the pre-generated next shape is an O
piece that will spawn right into the settled one. -/
def exOver : GameContext :=
  { exContext with
    shapes := [oSpawn, oFloor]
    next_shape := get_new_shape .O }

/-- The session exOver with negative points and highscore. -/
def exNeg : GameContext :=
  { exOver with points := -5, highscore := -5 }

/-- A session whose active O piece hugs the left wall: its occupied cells are
at board columns 0 and 1, so a further left step leaves the board. -/
def exLateral : GameContext :=
  { exContext with shapes := [⟨⟨-1, 5⟩, BLOCK_MASKS .O, 4⟩] }

/-! ## Helper lemmas -/

theorem intRange_eq_nil {x y : Int} (h : y ≤ x) : intRange x y = [] := by
  have h0 : (y - x).toNat = 0 := by omega
  simp [intRange, h0]

/-! ## C2: rotation is pure, total, of order four, with the stated cell map -/

theorem rotate_shape_explicit (a0 a1 a2 a3 a4 a5 a6 a7 a8 a9 a10 a11 a12 a13 a14 a15 : Bool) :
    rotate_shape [a0, a1, a2, a3, a4, a5, a6, a7, a8, a9, a10, a11, a12, a13, a14, a15] =
      [a12, a8, a4, a0, a13, a9, a5, a1, a14, a10, a6, a2, a15, a11, a7, a3] := by
  simp [rotate_shape, range4, bmSet, bmGet, index_bm]

/-- C2: for every 4x4 boolean mask, rotate_shape is total (it is a Lean
function), four applications give back the original mask, and one application
sends the cell at local (x, y) to local (y, 3 - x) under the slot mapping
slot = 4*y + (3 - x) of index_bm. -/
theorem claim_C2_rotation_order_four (m : List Bool) (hm : m.length = 16) :
    rotate_shape (rotate_shape (rotate_shape (rotate_shape m))) = m ∧
    ∀ x y : Fin 4,
      bmGet (rotate_shape m) (index_bm (y : Int) (3 - (x : Int))) =
        bmGet m (index_bm (x : Int) (y : Int)) :=
  match m, hm with
  | [_, _, _, _, _, _, _, _, _, _, _, _, _, _, _, _], _ =>
    ⟨by rw [rotate_shape_explicit, rotate_shape_explicit, rotate_shape_explicit,
        rotate_shape_explicit],
     by
      intro x y
      rw [rotate_shape_explicit]
      fin_cases x <;> fin_cases y <;> rfl⟩

/-- C2 witness: the rotation property evaluated on the L mask. -/
theorem claim_C2_rotation_order_four_witness :
    (BLOCK_MASKS .L).length = 16 ∧
    (rotate_shape (rotate_shape (rotate_shape (rotate_shape (BLOCK_MASKS .L)))) =
        BLOCK_MASKS .L ∧
      ∀ x y : Fin 4,
        bmGet (rotate_shape (BLOCK_MASKS .L)) (index_bm (y : Int) (3 - (x : Int))) =
          bmGet (BLOCK_MASKS .L) (index_bm (x : Int) (y : Int))) :=
  ⟨rfl, claim_C2_rotation_order_four (BLOCK_MASKS .L) rfl⟩

/-! ## C3: touching but non-overlapping bounding boxes never collide -/

theorem touching_pair_no_collision (a b : TetrisBlock)
    (hx : (b.position.x - a.position.x).natAbs ≤ 4)
    (hy : (b.position.y - a.position.y).natAbs ≤ 4)
    (hedge : (b.position.x - a.position.x).natAbs = 4 ∨
      (b.position.y - a.position.y).natAbs = 4) :
    intersects_any [a, b] = false := by
  have hg : ([a, b] : List TetrisBlock).getLast? = some b := rfl
  have hd : ([a, b] : List TetrisBlock).dropLast = [a] := rfl
  have hp1 : (decide ((get_shape_bounds b.position).min_x > (get_shape_bounds a.position).max_x) ||
      decide ((get_shape_bounds b.position).max_x < (get_shape_bounds a.position).min_x)) =
        false := by
    simp only [get_shape_bounds, Bool.or_eq_false_iff, decide_eq_false_iff_not, not_lt]
    omega
  have hp2 : (decide ((get_shape_bounds b.position).min_y > (get_shape_bounds a.position).max_y) ||
      decide ((get_shape_bounds b.position).max_y < (get_shape_bounds a.position).min_y)) =
        false := by
    simp only [get_shape_bounds, Bool.or_eq_false_iff, decide_eq_false_iff_not, not_lt]
    omega
  have hcc : check_collision
      (get_intersection_area (get_shape_bounds b.position) (get_shape_bounds a.position))
      b a = false := by
    rcases hedge with h4 | h4
    · have hnil : intRange
          (get_intersection_area (get_shape_bounds b.position)
            (get_shape_bounds a.position)).min_x
          (get_intersection_area (get_shape_bounds b.position)
            (get_shape_bounds a.position)).max_x = [] := by
        apply intRange_eq_nil
        simp only [get_intersection_area, get_shape_bounds]
        omega
      simp [check_collision, hnil]
    · have hnil : intRange
          (get_intersection_area (get_shape_bounds b.position)
            (get_shape_bounds a.position)).min_y
          (get_intersection_area (get_shape_bounds b.position)
            (get_shape_bounds a.position)).max_y = [] := by
        apply intRange_eq_nil
        simp only [get_intersection_area, get_shape_bounds]
        omega
      simp [check_collision, hnil]
  unfold intersects_any
  rw [hg]
  simp only [hd, List.any_cons, List.any_nil, Bool.or_false]
  rw [if_neg, if_neg]
  · exact hcc
  · simp only [gt_iff_lt, hp2, Bool.false_eq_true, not_false_eq_true]
  · simp only [gt_iff_lt, hp1, Bool.false_eq_true, not_false_eq_true]

/-- C3: whenever the 4x4 bounding boxes of two shapes touch but do not overlap
(their reference points differ by exactly 4 on one axis and by at most 4 on
the other, so they share only an edge or a corner and no board cell lies in
both boxes), intersects_any with either of the two as the active (last) shape
answers false: the strict bounding box comparisons and the empty intersection
region never report a collision. -/
theorem claim_C3_touching_boxes_no_collision (a b : TetrisBlock)
    (hx : (b.position.x - a.position.x).natAbs ≤ 4)
    (hy : (b.position.y - a.position.y).natAbs ≤ 4)
    (hedge : (b.position.x - a.position.x).natAbs = 4 ∨
      (b.position.y - a.position.y).natAbs = 4) :
    intersects_any [a, b] = false ∧ intersects_any [b, a] = false := by
  refine ⟨touching_pair_no_collision a b hx hy hedge, ?_⟩
  apply touching_pair_no_collision b a
  · omega
  · omega
  · omega

/-- C3 witness: two O pieces whose boxes share an edge. -/
theorem claim_C3_touching_boxes_no_collision_witness :
    ((oFloor.position.x + 4 - oFloor.position.x).natAbs ≤ 4 ∧
      (oFloor.position.y - oFloor.position.y).natAbs ≤ 4 ∧
      ((oFloor.position.x + 4 - oFloor.position.x).natAbs = 4 ∨
        (oFloor.position.y - oFloor.position.y).natAbs = 4)) ∧
    (intersects_any [oFloor, ⟨⟨oFloor.position.x + 4, oFloor.position.y⟩, BLOCK_MASKS .O, 4⟩] =
        false ∧
      intersects_any [⟨⟨oFloor.position.x + 4, oFloor.position.y⟩, BLOCK_MASKS .O, 4⟩, oFloor] =
        false) :=
  ⟨by decide,
    claim_C3_touching_boxes_no_collision oFloor
      ⟨⟨oFloor.position.x + 4, oFloor.position.y⟩, BLOCK_MASKS .O, 4⟩
      (by decide) (by decide) (by decide)⟩

/-! ## C5: the scoring formula of update_points -/

/-- C5: for every session state and every count n of rows cleared in one pass,
update_points adds exactly factor * 10 * (level + 1) to points, the factor
being 1, 3, 5, 8 for n = 1, 2, 3, 4 and 0 for every other n; at level 0
clearing 1, 2, 3, 4 rows adds 10, 30, 50, 80 points and clearing 0 rows
adds 0. -/
theorem claim_C5_scoring (context : GameContext) (n : Nat) :
    (update_points context n).points =
      context.points +
        (if n = 1 then 1 else if n = 2 then 3 else if n = 3 then 5 else
          if n = 4 then 8 else 0) * 10 * (context.level + 1) ∧
    (update_points { context with level := 0 } 1).points = context.points + 10 ∧
    (update_points { context with level := 0 } 2).points = context.points + 30 ∧
    (update_points { context with level := 0 } 3).points = context.points + 50 ∧
    (update_points { context with level := 0 } 4).points = context.points + 80 ∧
    (update_points { context with level := 0 } 0).points = context.points := by
  rcases n with _ | _ | _ | _ | _ | n <;>
    refine ⟨?_, ?_, ?_, ?_, ?_, ?_⟩ <;>
      simp [update_points, POINTS_PER_FULL_ROW]

/-! ## C9: stats persistence round trip and default fallback -/

/-- C9: saving a stats record and loading it back yields a record with the
same highscore value, and load_stats on a missing source (none, the
FileNotFoundError path) or a malformed source (some none, the
JSONDecodeError path) does not raise but returns DEFAULT_STATS, whose
highscore is 0. -/
theorem claim_C9_stats_roundtrip_and_default :
    (∀ stats : StatsDict, load_stats (save_stats stats) = stats) ∧
    (∀ stats : StatsDict,
      statsGet (load_stats (save_stats stats)) "highscore" 0 =
        statsGet stats "highscore" 0) ∧
    load_stats none = DEFAULT_STATS ∧
    load_stats (some none) = DEFAULT_STATS ∧
    statsGet (load_stats none) "highscore" 0 = 0 ∧
    statsGet (load_stats (some none)) "highscore" 0 = 0 :=
  ⟨fun _ => rfl, fun _ => rfl, rfl, rfl, by decide, by decide⟩

/-! ## Counting lemmas for the row clearing loop -/

theorem cellCount_cons (b : Bool) (l : List Bool) :
    cellCount (b :: l) = (if b then 1 else 0) + cellCount l := by
  simp [cellCount]

theorem cellCount_set_true_le (l : List Bool) (i : Nat) :
    cellCount (l.set i true) ≤ cellCount l + 1 := by
  induction l generalizing i with
  | nil => simp [cellCount]
  | cons b t ih =>
    cases i with
    | zero => simp [List.set, cellCount_cons]; omega
    | succ n =>
      simp only [List.set, cellCount_cons]
      have := ih n
      omega

theorem cellCount_eq_length_of_all (l : List Bool) (h : l.all id = true) :
    cellCount l = l.length := by
  induction l with
  | nil => rfl
  | cons b t ih =>
    simp only [List.all_cons, Bool.and_eq_true, id_eq] at h
    simp [cellCount_cons, h.1, ih h.2]
    omega

theorem cellCount_foldl_le {α : Type} (f : List Bool → α → List Bool) (g : α → Nat)
    (hf : ∀ m x, cellCount (f m x) ≤ cellCount m + g x) (xs : List α) (m : List Bool) :
    cellCount (xs.foldl f m) ≤ cellCount m + (xs.map g).sum := by
  induction xs generalizing m with
  | nil => simp
  | cons x xs ih =>
    simp only [List.foldl_cons, List.map_cons, List.sum_cons]
    have h1 := ih (f m x)
    have h2 := hf m x
    omega

theorem length_foldl_preserve {α : Type} (f : List Bool → α → List Bool)
    (hf : ∀ m x, (f m x).length = m.length) (xs : List α) (m : List Bool) :
    (xs.foldl f m).length = m.length := by
  induction xs generalizing m with
  | nil => rfl
  | cons x xs ih => simp only [List.foldl_cons]; rw [ih (f m x), hf]

theorem length_bmSet (m : List Bool) (i : Int) (b : Bool) :
    (bmSet m i b).length = m.length := by
  unfold bmSet
  split
  · simp
  · rfl

theorem cellCount_categorize_le (s : TetrisBlock) (row : Int) (m : List Bool) :
    cellCount (categorize_and_mark_shape s m row) ≤
      cellCount m +
        (if shape_above s row || shape_below s row then 0 else rowCount s row) := by
  unfold categorize_and_mark_shape
  split
  case isTrue h => omega
  case isFalse h1 =>
    split
    case isTrue h => omega
    case isFalse h2 =>
      have hc : (shape_above s row || shape_below s row) = false := by
        simp [shape_above, shape_below, h1, h2]
      rw [hc]
      simp only [Bool.false_eq_true, if_false]
      refine le_trans (cellCount_foldl_le _
        (fun x => if bmGet s.block (index_bm x (row - s.position.y)) then 1 else 0)
        ?_ range4 m) (le_of_eq ?_)
      · intro m x
        dsimp only
        split
        · omega
        · split
          case isTrue hocc =>
            simpa using cellCount_set_true_le m (s.position.x + x).toNat
          case isFalse hocc =>
            simp [hocc]
      · rfl

theorem length_categorize (s : TetrisBlock) (row : Int) (m : List Bool) :
    (categorize_and_mark_shape s m row).length = m.length := by
  unfold categorize_and_mark_shape
  split
  · rfl
  · split
    · rfl
    · refine length_foldl_preserve _ ?_ range4 m
      intro m x
      dsimp only
      split
      · rfl
      · split
        · simp
        · rfl

theorem length_row_filled_mask (shapes : List TetrisBlock) (row : Int) :
    (row_filled_mask shapes row).length = 13 := by
  unfold row_filled_mask
  rw [length_foldl_preserve _ (fun m s => length_categorize s row m) shapes]
  rfl

theorem thirteen_le_sum_rowCount (shapes : List TetrisBlock) (row : Int)
    (hfull : (row_filled_mask shapes row).all id = true) :
    13 ≤ (shapes.map (fun s =>
      if shape_above s row || shape_below s row then 0 else rowCount s row)).sum := by
  have h13 : cellCount (row_filled_mask shapes row) = 13 := by
    rw [cellCount_eq_length_of_all _ hfull, length_row_filled_mask]
  have hb := cellCount_foldl_le
    (fun mask shape => categorize_and_mark_shape shape mask row)
    (fun s => if shape_above s row || shape_below s row then 0 else rowCount s row)
    (fun m s => cellCount_categorize_le s row m) shapes
    (List.replicate WIDTH.toNat false)
  have hz : cellCount (List.replicate WIDTH.toNat false) = 0 := by decide
  unfold row_filled_mask at h13
  omega

theorem cellCount_remove_row_mask (block : List Bool) (hb : block.length = 16) (k : Int)
    (h0 : 0 ≤ k) (h4 : k < 4) :
    cellCount (remove_row_mask block k) +
      (range4.map (fun x => if bmGet block (index_bm x k) then 1 else 0)).sum =
      cellCount block := by
  have hk : k = 0 ∨ k = 1 ∨ k = 2 ∨ k = 3 := by omega
  match block, hb with
  | [a0, a1, a2, a3, a4, a5, a6, a7, a8, a9, a10, a11, a12, a13, a14, a15], _ =>
    rcases hk with rfl | rfl | rfl | rfl <;>
      · simp [remove_row_mask, cellCount, range4, bmGet, bmSet, index_bm]
        omega

theorem length_remove_row_mask (block : List Bool) (k : Int) :
    (remove_row_mask block k).length = 16 := by
  unfold remove_row_mask
  rw [length_foldl_preserve _ ?_ range4 (List.replicate 16 false)]
  · rfl
  · intro m x
    refine length_foldl_preserve _ ?_ range4 m
    intro m y
    dsimp only
    split
    · rw [length_bmSet]
    · split
      · rw [length_bmSet]
      · rw [length_bmSet]

theorem cellCount_clear_row_shape (s : TetrisBlock) (row : Int)
    (hlen : s.block.length = 16) :
    cellCount (if shape_above s row then move_shape_down s
        else if shape_below s row then s
        else remove_row_from_shape s row).block +
      (if shape_above s row || shape_below s row then 0 else rowCount s row) =
      cellCount s.block := by
  by_cases h1 : shape_above s row = true
  · simp [h1, move_shape_down]
  · by_cases h2 : shape_below s row = true
    · simp [h1, h2]
    · rw [Bool.not_eq_true] at h1 h2
      simp only [h1, h2, Bool.false_eq_true, if_false, Bool.or_self]
      have hy1 : 0 ≤ row - s.position.y := by
        simp [shape_above] at h1
        omega
      have hy2 : row - s.position.y < 4 := by
        simp [shape_below] at h2
        omega
      exact cellCount_remove_row_mask s.block hlen (row - s.position.y) hy1 hy2

theorem totalCells_clear_row (shapes : List TetrisBlock) (row : Int)
    (hlen : ∀ s ∈ shapes, s.block.length = 16) :
    totalCells (clear_row shapes row) +
      (shapes.map (fun s =>
        if shape_above s row || shape_below s row then 0 else rowCount s row)).sum =
      totalCells shapes := by
  induction shapes with
  | nil => rfl
  | cons s t ih =>
    simp only [clear_row, List.map_cons, totalCells, List.sum_cons] at ih ⊢
    have hs := cellCount_clear_row_shape s row (hlen s (List.mem_cons_self s t))
    have ht := ih (fun u hu => hlen u (List.mem_cons_of_mem s hu))
    simp only [clear_row, totalCells] at hs ht
    omega

theorem totalCells_clear_row_lt (shapes : List TetrisBlock) (row : Int)
    (hlen : ∀ s ∈ shapes, s.block.length = 16)
    (hfull : (row_filled_mask shapes row).all id = true) :
    totalCells (clear_row shapes row) + 13 ≤ totalCells shapes := by
  have h1 := totalCells_clear_row shapes row hlen
  have h2 := thirteen_le_sum_rowCount shapes row hfull
  omega

theorem clear_row_block_length (shapes : List TetrisBlock) (row : Int)
    (hlen : ∀ s ∈ shapes, s.block.length = 16) :
    ∀ s ∈ clear_row shapes row, s.block.length = 16 := by
  intro s hs
  simp only [clear_row, List.mem_map] at hs
  obtain ⟨t, ht, rfl⟩ := hs
  have hlt := hlen t ht
  split
  · exact hlt
  · split
    · exact hlt
    · exact length_remove_row_mask t.block (row - t.position.y)

/-! ## Termination and count bound of the clearing loop -/

theorem clear_full_rows_aux_isSome (fuel : Nat) :
    ∀ (shapes : List TetrisBlock) (row : Int),
      (∀ s ∈ shapes, s.block.length = 16) →
      totalCells shapes + (HEIGHT - row).toNat < fuel →
      ∃ out, clear_full_rows_aux fuel shapes row = some out := by
  induction fuel with
  | zero =>
    intro shapes row _ h
    omega
  | succ fuel ih =>
    intro shapes row hlen h
    unfold clear_full_rows_aux
    split
    case isTrue hrow =>
      split
      case isTrue hfull =>
        have hdec := totalCells_clear_row_lt shapes row hlen hfull
        obtain ⟨out, hout⟩ := ih (clear_row shapes row) row
          (clear_row_block_length shapes row hlen) (by omega)
        obtain ⟨res, n⟩ := out
        rw [hout]
        exact ⟨(res, n + 1), rfl⟩
      case isFalse hfull =>
        exact ih shapes (row + 1) hlen (by simp only [HEIGHT] at hrow h ⊢; omega)
    case isFalse hrow =>
      exact ⟨(shapes, 0), rfl⟩

theorem clear_full_rows_aux_count (fuel : Nat) :
    ∀ (shapes : List TetrisBlock) (row : Int) (res : List TetrisBlock) (n : Nat),
      (∀ s ∈ shapes, s.block.length = 16) →
      clear_full_rows_aux fuel shapes row = some (res, n) →
      n * 13 ≤ totalCells shapes := by
  induction fuel with
  | zero =>
    intro shapes row res n _ h
    simp [clear_full_rows_aux] at h
  | succ fuel ih =>
    intro shapes row res n hlen h
    unfold clear_full_rows_aux at h
    split at h
    case isTrue hrow =>
      split at h
      case isTrue hfull =>
        have hdec := totalCells_clear_row_lt shapes row hlen hfull
        cases heq : clear_full_rows_aux fuel (clear_row shapes row) row with
        | none => rw [heq] at h; simp at h
        | some p =>
          obtain ⟨res9, n9⟩ := p
          rw [heq] at h
          simp only [Option.some.injEq, Prod.mk.injEq] at h
          obtain ⟨hres, hn⟩ := h
          have hb := ih (clear_row shapes row) row res9 n9
            (clear_row_block_length shapes row hlen) heq
          omega
      case isFalse hfull =>
        exact ih shapes (row + 1) res n hlen h
    case isFalse hrow =>
      simp only [Option.some.injEq, Prod.mk.injEq] at h
      obtain ⟨hres, hn⟩ := h
      omega

/-! ## C10: the clearing loop terminates, with at most totalCells / WIDTH clears -/

/-- C10: on every finite list of shapes with 16-entry boolean masks the
clearing loop terminates although it does not advance the row index after a
clear: every cleared row is full, which removes at least WIDTH occupied cells
from the cutting shapes, so the fuel totalCells + HEIGHT + 1 used by
clear_full_rows is never exhausted (the result is some, never none) and the
returned count is at most totalCells / WIDTH. -/
theorem claim_C10_clear_full_rows_terminates (shapes : List TetrisBlock)
    (hlen : ∀ s ∈ shapes, s.block.length = 16) :
    ∃ res n, clear_full_rows shapes = some (res, n) ∧
      n ≤ totalCells shapes / WIDTH.toNat := by
  obtain ⟨out, hout⟩ := clear_full_rows_aux_isSome (totalCells shapes + HEIGHT.toNat + 1)
    shapes 0 hlen (by simp only [HEIGHT]; omega)
  obtain ⟨res, n⟩ := out
  refine ⟨res, n, hout, ?_⟩
  have hcount := clear_full_rows_aux_count (totalCells shapes + HEIGHT.toNat + 1)
    shapes 0 res n hlen hout
  have hw : WIDTH.toNat = 13 := rfl
  rw [hw]
  omega

/-- C10 witness: the loop on a single O piece terminates with zero clears. -/
theorem claim_C10_clear_full_rows_terminates_witness :
    (∀ s ∈ [oSpawn], s.block.length = 16) ∧
    ∃ res n, clear_full_rows [oSpawn] = some (res, n) ∧
      n ≤ totalCells [oSpawn] / WIDTH.toNat :=
  ⟨by decide, claim_C10_clear_full_rows_terminates [oSpawn] (by decide)⟩

/-! ## Bridge between the row fill mask and occupancy -/

theorem mem_intRange {a b x : Int} : x ∈ intRange a b ↔ a ≤ x ∧ x < b := by
  simp only [intRange, List.mem_map, List.mem_range]
  constructor
  · rintro ⟨i, hi, rfl⟩
    omega
  · rintro ⟨h1, h2⟩
    exact ⟨(x - a).toNat, by omega, by omega⟩

theorem mem_range4 {k : Int} (h0 : 0 ≤ k) (h4 : k < 4) : k ∈ range4 := by
  have : k = 0 ∨ k = 1 ∨ k = 2 ∨ k = 3 := by omega
  rcases this with rfl | rfl | rfl | rfl <;> simp [range4]

theorem getD_set_cases (l : List Bool) (i j : Nat) (b : Bool)
    (h : (l.set i b).getD j false = true) :
    (i = j ∧ b = true) ∨ l.getD j false = true := by
  induction l generalizing i j with
  | nil => simp at h
  | cons hd tl ih =>
    cases i with
    | zero =>
      cases j with
      | zero => exact Or.inl ⟨rfl, by simpa using h⟩
      | succ j => exact Or.inr (by simpa using h)
    | succ i =>
      cases j with
      | zero => exact Or.inr (by simpa using h)
      | succ j =>
        rcases ih i j (by simpa using h) with h9 | h9
        · exact Or.inl ⟨by omega, h9.2⟩
        · exact Or.inr (by simpa using h9)

theorem getD_eq_true_of_all (l : List Bool) (h : l.all id = true) (j : Nat)
    (hj : j < l.length) : l.getD j false = true := by
  induction l generalizing j with
  | nil => simp at hj
  | cons b t ih =>
    simp only [List.all_cons, Bool.and_eq_true, id_eq] at h
    cases j with
    | zero => simpa using h.1
    | succ j => simpa using ih h.2 j (by simpa using hj)

theorem mark_fold_mem (s : TetrisBlock) (row : Int) (xs : List Int) (m : List Bool) (c : Nat)
    (h : (xs.foldl (fun mask x =>
        if ¬ (0 ≤ s.position.x + x ∧ s.position.x + x < WIDTH) then mask
        else if bmGet s.block (index_bm x (row - s.position.y)) then
          mask.set (s.position.x + x).toNat true
        else mask) m).getD c false = true) :
    m.getD c false = true ∨
      ∃ x ∈ xs, s.position.x + x = (c : Int) ∧
        bmGet s.block (index_bm x (row - s.position.y)) = true := by
  induction xs generalizing m with
  | nil => exact Or.inl h
  | cons x xs ih =>
    rw [List.foldl_cons] at h
    rcases ih _ h with h9 | ⟨x9, hx9, h9⟩
    · split at h9
      · exact Or.inl h9
      case isFalse hguard =>
        split at h9
        case isTrue hocc =>
          rcases getD_set_cases m (s.position.x + x).toNat c true h9 with ⟨hij, _⟩ | h10
          · refine Or.inr ⟨x, List.mem_cons_self x xs, ?_, hocc⟩
            rw [not_not] at hguard
            omega
          · exact Or.inl h10
        · exact Or.inl h9
    · exact Or.inr ⟨x9, List.mem_cons_of_mem x hx9, h9⟩

theorem categorize_mem (s : TetrisBlock) (row : Int) (m : List Bool) (c : Nat)
    (h : (categorize_and_mark_shape s m row).getD c false = true) :
    m.getD c false = true ∨ occupies_cell s (c : Int) row = true := by
  unfold categorize_and_mark_shape at h
  split at h
  · exact Or.inl h
  case isFalse h1 =>
    split at h
    · exact Or.inl h
    case isFalse h2 =>
      rcases mark_fold_mem s row range4 m c h with h9 | ⟨x, hx, hcol, hocc⟩
      · exact Or.inl h9
      · refine Or.inr ?_
        simp only [occupies_cell, List.any_eq_true]
        refine ⟨x, hx, row - s.position.y, mem_range4 (by omega) (by omega), ?_⟩
        simp only [Bool.and_eq_true, decide_eq_true_eq]
        exact ⟨⟨hcol, by omega⟩, hocc⟩

theorem row_filled_mask_mem (shapes : List TetrisBlock) (row : Int) (c : Nat)
    (h : (row_filled_mask shapes row).getD c false = true) :
    ∃ s ∈ shapes, occupies_cell s (c : Int) row = true := by
  have main : ∀ (ss : List TetrisBlock) (m : List Bool),
      (ss.foldl (fun mask shape => categorize_and_mark_shape shape mask row) m).getD c false =
        true →
      m.getD c false = true ∨ ∃ s ∈ ss, occupies_cell s (c : Int) row = true := by
    intro ss
    induction ss with
    | nil => exact fun m hm => Or.inl hm
    | cons s t ih =>
      intro m hm
      rw [List.foldl_cons] at hm
      rcases ih _ hm with h9 | ⟨s9, hs9, h9⟩
      · rcases categorize_mem s row m c h9 with h10 | h10
        · exact Or.inl h10
        · exact Or.inr ⟨s, List.mem_cons_self s t, h10⟩
      · exact Or.inr ⟨s9, List.mem_cons_of_mem s hs9, h9⟩
  rcases main shapes (List.replicate WIDTH.toNat false) h with h9 | h9
  · have : (List.replicate WIDTH.toNat false).getD c false = false := by
      simp [List.getD_eq_getElem?_getD]
    rw [this] at h9
    exact absurd h9 (by simp)
  · exact h9

/-! ## C4: no full row means the clearing pass is the identity -/

/-- C4: whenever no board row 0 <= row < HEIGHT has all WIDTH columns occupied
by some shape, clear_full_rows returns 0 and leaves every shape (mask and
position) exactly unchanged; each scanned row fails the fullness test and the
loop only advances to the next row. -/
theorem claim_C4_no_full_rows_identity (shapes : List TetrisBlock)
    (h : ∀ r ∈ intRange 0 HEIGHT, ∃ c ∈ intRange 0 WIDTH,
      ∀ s ∈ shapes, occupies_cell s c r = false) :
    clear_full_rows shapes = some (shapes, 0) := by
  have hnotfull : ∀ r : Int, 0 ≤ r → r < HEIGHT →
      ¬ (row_filled_mask shapes r).all id = true := by
    intro r h0 h1 hall
    obtain ⟨c, hc, hempty⟩ := h r (mem_intRange.mpr ⟨h0, h1⟩)
    have hcb := mem_intRange.mp hc
    have hget := getD_eq_true_of_all _ hall c.toNat
      (by rw [length_row_filled_mask]; simp only [WIDTH] at hcb; omega)
    obtain ⟨s, hs, hocc⟩ := row_filled_mask_mem shapes r c.toNat hget
    have hcast : (c.toNat : Int) = c := by omega
    rw [hcast] at hocc
    rw [hempty s hs] at hocc
    exact absurd hocc (by simp)
  have haux : ∀ fuel : Nat, ∀ row : Int, 0 ≤ row → (HEIGHT - row).toNat < fuel →
      clear_full_rows_aux fuel shapes row = some (shapes, 0) := by
    intro fuel
    induction fuel with
    | zero =>
      intro row _ hf
      omega
    | succ fuel ih =>
      intro row h0 hf
      unfold clear_full_rows_aux
      split
      case isTrue hrow =>
        rw [if_neg (hnotfull row h0 hrow)]
        exact ih (row + 1) (by omega) (by simp only [HEIGHT] at hf hrow ⊢; omega)
      case isFalse hrow =>
        rfl
  exact haux (totalCells shapes + HEIGHT.toNat + 1) 0 le_rfl
    (by simp only [HEIGHT]; omega)

/-- C4 witness: a single O piece fills no row, so the pass is the identity. -/
theorem claim_C4_no_full_rows_identity_witness :
    (∀ r ∈ intRange 0 HEIGHT, ∃ c ∈ intRange 0 WIDTH,
      ∀ s ∈ [oSpawn], occupies_cell s c r = false) ∧
    clear_full_rows [oSpawn] = some ([oSpawn], 0) :=
  ⟨by decide, claim_C4_no_full_rows_identity [oSpawn] (by decide)⟩

/-! ## The per-frame update -/

theorem move_shape_restore (shape : TetrisBlock) (key : Int) :
    { move_shape shape key with position := shape.position, block := shape.block } = shape := by
  cases shape
  unfold move_shape
  split
  · rfl
  · split
    · rfl
    · split
      · rfl
      · split
        · rfl
        · rfl

/-- Behaviour of frame on a nonempty shapes list, split by validity of the
move: a valid move replaces the active shape by the moved one; an invalid
non-downward move gives back the context unchanged; an invalid downward move
runs the settling logic on the unchanged context. -/
theorem frame_eq (key : Int) (k1 k2 : TetrisBlockShape) (ctx : GameContext)
    (rest : List TetrisBlock) (shape : TetrisBlock)
    (hs : ctx.shapes = rest ++ [shape]) (hk : key ∈ ARROW_KEYS) :
    frame key k1 k2 ctx =
      if !(is_in_bounds (move_shape shape key)) ||
          intersects_any (rest ++ [move_shape shape key]) then
        if !((key == KEY_LEFT) || (key == KEY_RIGHT) || (key == KEY_UP)) then
          settle ctx k1 k2
        else some ctx
      else some { ctx with shapes := rest ++ [move_shape shape key] } := by
  unfold frame
  rw [if_neg (by simp [hk])]
  rw [hs]
  simp only [List.getLast?_concat, List.dropLast_concat]
  rw [move_shape_restore shape key]
  rw [← hs]

/-! ## C1: when the settling logic runs -/

/-- C1 counterexample: the claim is false on the code.  At exContext the
downward step is valid (in bounds, no collision), yet frame performs no
settling at all: the shapes list keeps its single element, the next shape is
not consumed and the points are untouched, refuting that settling runs on a
valid downward step.  At exFloorCtx the downward step is invalid, yet frame
does more than restore the snapshot: it spawns a shape, growing the shapes
list to two elements. -/
theorem claim_C1_counterexample :
    (is_in_bounds (move_shape oSpawn KEY_DOWN) = true ∧
      intersects_any [move_shape oSpawn KEY_DOWN] = false ∧
      frame KEY_DOWN .I .I exContext = some exContextDown ∧
      exContextDown.shapes.length = 1 ∧
      exContextDown.next_shape = exContext.next_shape ∧
      exContextDown.points = exContext.points) ∧
    (is_in_bounds (move_shape ⟨⟨4, -1⟩, BLOCK_MASKS .O, 4⟩ KEY_DOWN) = false ∧
      (frame KEY_DOWN .I .J exFloorCtx).map (fun c => c.shapes.length) = some 2) := by
  decide

/-- C1 as amended: the settling logic of frame (clear full rows, update points
and level, spawn, update the highscore, reset on a colliding spawn) runs
exactly when the applied downward step was rejected as invalid; a valid move
of any direction only replaces the active shape by the moved one with no
further effect, and an invalid left, right or up move only restores the
snapshotted position and mask, leaving the session state identical. -/
theorem claim_C1_settle_on_rejected_down (key : Int) (k1 k2 : TetrisBlockShape)
    (ctx : GameContext) (rest : List TetrisBlock) (shape : TetrisBlock)
    (hs : ctx.shapes = rest ++ [shape]) (hk : key ∈ ARROW_KEYS) :
    (is_in_bounds (move_shape shape key) = true ∧
        intersects_any (rest ++ [move_shape shape key]) = false →
      frame key k1 k2 ctx = some { ctx with shapes := rest ++ [move_shape shape key] }) ∧
    ((is_in_bounds (move_shape shape key) = false ∨
        intersects_any (rest ++ [move_shape shape key]) = true) →
      (key = KEY_LEFT ∨ key = KEY_RIGHT ∨ key = KEY_UP) →
      frame key k1 k2 ctx = some ctx) ∧
    ((is_in_bounds (move_shape shape key) = false ∨
        intersects_any (rest ++ [move_shape shape key]) = true) →
      key = KEY_DOWN →
      frame key k1 k2 ctx = settle ctx k1 k2) := by
  rw [frame_eq key k1 k2 ctx rest shape hs hk]
  refine ⟨?_, ?_, ?_⟩
  · rintro ⟨h1, h2⟩
    rw [h1, h2]
    simp
  · rintro h hlru
    have hcond : (!(is_in_bounds (move_shape shape key)) ||
        intersects_any (rest ++ [move_shape shape key])) = true := by
      rcases h with h | h <;> simp [h]
    rw [if_pos hcond]
    have hb : (!((key == KEY_LEFT) || (key == KEY_RIGHT) || (key == KEY_UP))) = false := by
      rcases hlru with rfl | rfl | rfl <;> decide
    rw [if_neg (by simp [hb])]
  · rintro h rfl
    have hcond : (!(is_in_bounds (move_shape shape KEY_DOWN)) ||
        intersects_any (rest ++ [move_shape shape KEY_DOWN])) = true := by
      rcases h with h | h <;> simp [h]
    rw [if_pos hcond, if_pos (by decide)]

/-- C1 witness: the amended claim evaluated on a single-piece session. -/
theorem claim_C1_settle_on_rejected_down_witness :
    (exContext.shapes = [] ++ [oSpawn] ∧ KEY_DOWN ∈ ARROW_KEYS) ∧
    ((is_in_bounds (move_shape oSpawn KEY_DOWN) = true ∧
        intersects_any ([] ++ [move_shape oSpawn KEY_DOWN]) = false →
      frame KEY_DOWN .I .I exContext =
        some { exContext with shapes := [] ++ [move_shape oSpawn KEY_DOWN] }) ∧
    ((is_in_bounds (move_shape oSpawn KEY_DOWN) = false ∨
        intersects_any ([] ++ [move_shape oSpawn KEY_DOWN]) = true) →
      (KEY_DOWN = KEY_LEFT ∨ KEY_DOWN = KEY_RIGHT ∨ KEY_DOWN = KEY_UP) →
      frame KEY_DOWN .I .I exContext = some exContext) ∧
    ((is_in_bounds (move_shape oSpawn KEY_DOWN) = false ∨
        intersects_any ([] ++ [move_shape oSpawn KEY_DOWN]) = true) →
      KEY_DOWN = KEY_DOWN →
      frame KEY_DOWN .I .I exContext = settle exContext .I .I)) :=
  ⟨⟨by decide, by decide⟩,
    claim_C1_settle_on_rejected_down KEY_DOWN .I .I exContext [] oSpawn
      (by decide) (by decide)⟩

/-! ## C8: a lateral move leaving the board is rejected with a full restore -/

/-- C8: a left or right key whose resulting position would place an occupied
cell of the active shape at board x below 0 or at x at least WIDTH is rejected
by frame: the call returns the context unchanged, so in particular the active
shape keeps the position and mask it had before the call. -/
theorem claim_C8_lateral_rejected (key : Int) (k1 k2 : TetrisBlockShape)
    (ctx : GameContext) (rest : List TetrisBlock) (shape : TetrisBlock)
    (hs : ctx.shapes = rest ++ [shape])
    (hkey : key = KEY_LEFT ∨ key = KEY_RIGHT)
    (hoob : ∃ x ∈ range4, ∃ y ∈ range4,
      bmGet (move_shape shape key).block (index_bm x y) = true ∧
      ((move_shape shape key).position.x + x < 0 ∨
        (move_shape shape key).position.x + x ≥ WIDTH)) :
    frame key k1 k2 ctx = some ctx := by
  obtain ⟨x, hx, y, hy, hocc, hbound⟩ := hoob
  have hib : is_in_bounds (move_shape shape key) = false := by
    rw [Bool.eq_false_iff]
    intro hall
    unfold is_in_bounds at hall
    rw [List.all_eq_true] at hall
    have h1 := hall x hx
    rw [List.all_eq_true] at h1
    have h2 := h1 y hy
    rw [hocc] at h2
    simp only [if_true, Bool.not_or, Bool.and_eq_true, Bool.not_eq_eq_eq_not,
      Bool.not_true, decide_eq_false_iff_not, not_lt, ge_iff_le, not_le] at h2
    omega
  rw [frame_eq key k1 k2 ctx rest shape hs
    (by rcases hkey with rfl | rfl <;> decide)]
  rw [hib]
  simp only [Bool.not_false, Bool.true_or, if_true]
  rw [if_neg]
  rcases hkey with rfl | rfl <;> decide

/-- C8 witness: a left key on an O piece hugging the left wall. -/
theorem claim_C8_lateral_rejected_witness :
    (exLateral.shapes = [] ++ [⟨⟨-1, 5⟩, BLOCK_MASKS .O, 4⟩] ∧
      (KEY_LEFT = KEY_LEFT ∨ KEY_LEFT = KEY_RIGHT) ∧
      (∃ x ∈ range4, ∃ y ∈ range4,
        bmGet (move_shape ⟨⟨-1, 5⟩, BLOCK_MASKS .O, 4⟩ KEY_LEFT).block (index_bm x y) = true ∧
        ((move_shape ⟨⟨-1, 5⟩, BLOCK_MASKS .O, 4⟩ KEY_LEFT).position.x + x < 0 ∨
          (move_shape ⟨⟨-1, 5⟩, BLOCK_MASKS .O, 4⟩ KEY_LEFT).position.x + x ≥ WIDTH))) ∧
    frame KEY_LEFT .I .J exLateral = some exLateral :=
  ⟨⟨by decide, by decide, by decide⟩,
    claim_C8_lateral_rejected KEY_LEFT .I .J exLateral []
      ⟨⟨-1, 5⟩, BLOCK_MASKS .O, 4⟩ (by decide) (by decide) (by decide)⟩

/-! ## C6: a colliding fresh spawn resets the session -/

/-- C6: when the downward step is rejected and, after settling (row clearing,
scoring, leveling) and spawning, the freshly spawned active shape collides
with an existing shape, frame immediately resets the session: afterwards
points = 0, level = 0, cleared_rows = 0, the shapes list holds exactly the one
freshly spawned shape (the promoted next shape, respawned at the spawn
position by reset_game) and game_started = false. -/
theorem claim_C6_game_over_reset (k1 k2 : TetrisBlockShape) (ctx : GameContext)
    (rest : List TetrisBlock) (shape : TetrisBlock)
    (shapes2 : List TetrisBlock) (n : Nat)
    (hs : ctx.shapes = rest ++ [shape])
    (hinvalid : is_in_bounds (move_shape shape KEY_DOWN) = false ∨
      intersects_any (rest ++ [move_shape shape KEY_DOWN]) = true)
    (hcf : clear_full_rows ctx.shapes = some (shapes2, n))
    (hcol : intersects_any (shapes2 ++ [ctx.next_shape]) = true) :
    ∃ ctx9, frame KEY_DOWN k1 k2 ctx = some ctx9 ∧
      ctx9.points = 0 ∧ ctx9.level = 0 ∧ ctx9.cleared_rows = 0 ∧
      ctx9.shapes = [get_new_shape k1] ∧ ctx9.game_started = false := by
  rw [frame_eq KEY_DOWN k1 k2 ctx rest shape hs (by decide)]
  have hcond : (!(is_in_bounds (move_shape shape KEY_DOWN)) ||
      intersects_any (rest ++ [move_shape shape KEY_DOWN])) = true := by
    rcases hinvalid with h | h <;> simp [h]
  rw [if_pos hcond, if_pos (by decide)]
  unfold settle
  rw [hcf]
  simp only [update_points, update_level, spawn_shape]
  rw [if_pos (by simpa using hcol)]
  refine ⟨_, rfl, ?_, ?_, ?_, ?_, ?_⟩ <;> simp [reset_game, spawn_shape]

/-- C6 witness: the session exOver ends and resets. -/
theorem claim_C6_game_over_reset_witness :
    (exOver.shapes = [oSpawn] ++ [oFloor] ∧
      (is_in_bounds (move_shape oFloor KEY_DOWN) = false ∨
        intersects_any ([oSpawn] ++ [move_shape oFloor KEY_DOWN]) = true) ∧
      clear_full_rows exOver.shapes = some (exOver.shapes, 0) ∧
      intersects_any (exOver.shapes ++ [exOver.next_shape]) = true) ∧
    (∃ ctx9, frame KEY_DOWN .I .J exOver = some ctx9 ∧
      ctx9.points = 0 ∧ ctx9.level = 0 ∧ ctx9.cleared_rows = 0 ∧
      ctx9.shapes = [get_new_shape .I] ∧ ctx9.game_started = false) :=
  ⟨⟨by decide, by decide, by decide, by decide⟩,
    claim_C6_game_over_reset .I .J exOver [oSpawn] oFloor exOver.shapes 0
      (by decide) (by decide) (by decide) (by decide)⟩

/-! ## C7: the highscore invariant -/

/-- C7 counterexample: the claim is false as stated.  The session exNeg
satisfies highscore >= points (both are -5), but after one frame with the
down key the session has been settled and reset: points is 0 while the
highscore stayed at max (-5) (-5) = -5, so highscore >= points no longer
holds.  The invariant needs the additional hypothesis 0 <= highscore, which
does hold at startup. -/
theorem claim_C7_highscore_counterexample :
    exNeg.points ≤ exNeg.highscore ∧
    (frame KEY_DOWN .I .J exNeg).map (fun c => decide (c.points ≤ c.highscore)) =
      some false := by
  decide

theorem settle_highscore_inv (ctx : GameContext) (k1 k2 : TetrisBlockShape)
    (ctx9 : GameContext) (hh : 0 ≤ ctx.highscore)
    (h : settle ctx k1 k2 = some ctx9) :
    ctx9.points ≤ ctx9.highscore ∧ 0 ≤ ctx9.highscore := by
  unfold settle at h
  cases hcf : clear_full_rows ctx.shapes with
  | none =>
    rw [hcf] at h
    exact absurd h (by simp)
  | some p =>
    obtain ⟨shapes2, n⟩ := p
    rw [hcf] at h
    simp only [Option.some.injEq] at h
    subst h
    split
    · simp only [reset_game, spawn_shape, update_points, update_level]
      refine ⟨?_, ?_⟩ <;> (try simp) <;> omega
    · simp only [update_points, update_level, spawn_shape]
      refine ⟨?_, ?_⟩ <;> (try simp) <;> omega

/-- C7 as amended: for every session state satisfying highscore >= points and
0 <= highscore (both hold at startup, where points = 0 and the loaded
highscore is a non-negative integer), after any single call to frame with any
key the resulting state again satisfies highscore >= points and
0 <= highscore. -/
theorem claim_C7_highscore_invariant (key : Int) (k1 k2 : TetrisBlockShape)
    (ctx ctx9 : GameContext)
    (hh0 : 0 ≤ ctx.highscore) (hhp : ctx.points ≤ ctx.highscore)
    (hf : frame key k1 k2 ctx = some ctx9) :
    ctx9.points ≤ ctx9.highscore ∧ 0 ≤ ctx9.highscore := by
  by_cases hk : key ∈ ARROW_KEYS
  · cases hgl : ctx.shapes.getLast? with
    | none =>
      rw [frame, if_neg (by simp [hk]), hgl] at hf
      exact absurd hf (by simp)
    | some shape =>
      have hs : ctx.shapes = ctx.shapes.dropLast ++ [shape] :=
        (List.dropLast_append_getLast? shape hgl).symm
      rw [frame_eq key k1 k2 ctx ctx.shapes.dropLast shape hs hk] at hf
      split at hf
      · split at hf
        · exact settle_highscore_inv ctx k1 k2 ctx9 hh0 hf
        · simp only [Option.some.injEq] at hf
          subst hf
          exact ⟨hhp, hh0⟩
      · simp only [Option.some.injEq] at hf
        subst hf
        exact ⟨hhp, hh0⟩
  · rw [frame, if_pos (by simp [hk])] at hf
    simp only [Option.some.injEq] at hf
    subst hf
    exact ⟨hhp, hh0⟩

/-- C7 witness: the amended invariant evaluated across one valid down step. -/
theorem claim_C7_highscore_invariant_witness :
    (0 ≤ exContext.highscore ∧ exContext.points ≤ exContext.highscore ∧
      frame KEY_DOWN .I .I exContext = some exContextDown) ∧
    (exContextDown.points ≤ exContextDown.highscore ∧ 0 ≤ exContextDown.highscore) :=
  ⟨⟨by decide, by decide, by decide⟩,
    claim_C7_highscore_invariant KEY_DOWN .I .I exContext exContextDown
      (by decide) (by decide) (by decide)⟩

end Tetris
